import Mathlib

/-!
# memogo — JWT token subsystem, verified against the implementation

Shallow embedding of the authentication-token code of the memogo repository.
The package `pkg/jwt/jwt.go` is quoted verbatim in the repository's learning
notes (`learning/01-jwt-token.md` Q2–Q3 for `GenerateToken`, `ParseToken` and
`GenerateTokenPair`; `learning/01-jwt-security.md` for the HS256 signing and
verification pipeline; the configuration notes for the `init`-time secret
loading), and those quotations are the source embedded here.

Conventions:
* A Go byte string (`[]byte` / `string`) is a `List Nat` with entries < 256.
* Unix times (`time.Time.Unix()`, `jwt.NumericDate`) are `Nat` seconds.
* The process-global signing secret (`jwtSecret`, read once by `init`) is
  passed explicitly to the issuing/validating functions, exactly the injected
  value `GetJWTSecret()` returns.
-/

namespace Memogo

/-- Byte strings: Go `[]byte` / `string` values, one `Nat` per byte. -/
abbrev Bytes := List Nat

/-- Every entry of the list is an actual byte value (< 256). -/
def ValidBytes (bs : Bytes) : Prop := ∀ b ∈ bs, b < 256

instance (bs : Bytes) : Decidable (ValidBytes bs) :=
  inferInstanceAs (Decidable (∀ b ∈ bs, b < 256))

/-! ## SHA-256 (FIPS 180-4) and HMAC (RFC 2104)

`golang-jwt`'s `SigningMethodHS256` computes `HMAC-SHA256(header "." payload,
secret)`; the repository documents the exact algorithm in
`learning/01-jwt-security.md` ("HS256 签名算法详解").  The full hash is
embedded executably; the proofs below never rely on any property of the
compression function beyond it being a function, mirroring how the code
treats it as a black box. 32-bit words are `Nat`s reduced mod `2^32`. -/

/-- `2^32`, the word modulus. -/
def w32 : Nat := 4294967296

/-- Right rotation of a 32-bit word by `n` (for `x < 2^32`, `n ≤ 32`). -/
def rotr32 (n x : Nat) : Nat := x / 2 ^ n + x % 2 ^ n * 2 ^ (32 - n)

/-- Bitwise complement on 32 bits. -/
def bnot32 (x : Nat) : Nat := x ^^^ (w32 - 1)

/-- `Ch(x,y,z) = (x ∧ y) ⊕ (¬x ∧ z)`. -/
def ch (x y z : Nat) : Nat := (x &&& y) ^^^ (bnot32 x &&& z)

/-- `Maj(x,y,z) = (x ∧ y) ⊕ (x ∧ z) ⊕ (y ∧ z)`. -/
def maj (x y z : Nat) : Nat := (x &&& y) ^^^ (x &&& z) ^^^ (y &&& z)

/-- `Σ₀`. -/
def bsig0 (x : Nat) : Nat := rotr32 2 x ^^^ rotr32 13 x ^^^ rotr32 22 x

/-- `Σ₁`. -/
def bsig1 (x : Nat) : Nat := rotr32 6 x ^^^ rotr32 11 x ^^^ rotr32 25 x

/-- `σ₀`. -/
def ssig0 (x : Nat) : Nat := rotr32 7 x ^^^ rotr32 18 x ^^^ x / 2 ^ 3

/-- `σ₁`. -/
def ssig1 (x : Nat) : Nat := rotr32 17 x ^^^ rotr32 19 x ^^^ x / 2 ^ 10

/-- The 64 SHA-256 round constants `K₀…K₆₃` (decimal). -/
def shaK : List Nat :=
  [1116352408, 1899447441, 3049323471, 3921009573, 961987163, 1508970993,
   2453635748, 2870763221, 3624381080, 310598401, 607225278, 1426881987,
   1925078388, 2162078206, 2614888103, 3248222580, 3835390401, 4022224774,
   264347078, 604807628, 770255983, 1249150122, 1555081692, 1996064986,
   2554220882, 2821834349, 2952996808, 3210313671, 3336571891, 3584528711,
   113926993, 338241895, 666307205, 773529912, 1294757372, 1396182291,
   1695183700, 1986661051, 2177026350, 2456956037, 2730485921, 2820302411,
   3259730800, 3345764771, 3516065817, 3600352804, 4094571909, 275423344,
   430227734, 506948616, 659060556, 883997877, 958139571, 1322822218,
   1537002063, 1747873779, 1955562222, 2024104815, 2227730452, 2361852424,
   2428436474, 2756734187, 3204031479, 3329325298]

/-- The eight SHA-256 initial hash values `H₀…H₇` (decimal). -/
def shaH0 : List Nat :=
  [1779033703, 3144134277, 1013904242, 2773480762,
   1359893119, 2600822924, 528734635, 1541459225]

/-- Big-endian 4-byte serialization of a 32-bit word. -/
def be32 (x : Nat) : Bytes :=
  [x / 16777216 % 256, x / 65536 % 256, x / 256 % 256, x % 256]

/-- Big-endian 8-byte serialization of a 64-bit length field. -/
def be64 (x : Nat) : Bytes :=
  [x / 72057594037927936 % 256, x / 281474976710656 % 256,
   x / 1099511627776 % 256, x / 4294967296 % 256,
   x / 16777216 % 256, x / 65536 % 256, x / 256 % 256, x % 256]

/-- SHA-256 padding (FIPS 180-4 §5.1.1): append `0x80`, zero-pad, then the
64-bit big-endian bit length, to a multiple of 64 bytes. -/
def sha256pad (msg : Bytes) : Bytes :=
  msg ++ 128 :: (List.replicate ((64 - (msg.length + 9) % 64) % 64) 0
    ++ be64 (8 * msg.length))

/-- Big-endian 32-bit words from bytes (length a multiple of 4 when used). -/
def bytesToWords : Bytes → List Nat
  | b0 :: b1 :: b2 :: b3 :: rest =>
      (b0 * 16777216 + b1 * 65536 + b2 * 256 + b3) :: bytesToWords rest
  | _ => []

/-- Extend the 16-word block to the 64-word message schedule: appends
`σ₁(W[t-2]) + W[t-7] + σ₀(W[t-15]) + W[t-16]` (mod `2^32`) `n` times. -/
def schedExtend (ws : List Nat) : Nat → List Nat
  | 0 => ws
  | n + 1 =>
      schedExtend
        (ws ++ [(ssig1 (ws.getD (ws.length - 2) 0) + ws.getD (ws.length - 7) 0
          + ssig0 (ws.getD (ws.length - 15) 0) + ws.getD (ws.length - 16) 0) % w32])
        n

/-- The 64-word message schedule of one 64-byte block. -/
def schedule (block : Bytes) : List Nat := schedExtend (bytesToWords block) 48

/-- One SHA-256 round on the 8-word working state `[a,b,c,d,e,f,g,h]`;
`kw` is the pair of round constant and schedule word. -/
def roundStep (st : List Nat) (kw : Nat × Nat) : List Nat :=
  match st with
  | [a, b, c, d, e, f, g, h] =>
      [((h + bsig1 e + ch e f g + kw.1 + kw.2) % w32 + (bsig0 a + maj a b c) % w32) % w32,
       a, b, c,
       (d + (h + bsig1 e + ch e f g + kw.1 + kw.2) % w32) % w32,
       e, f, g]
  | st => st

/-- Compress one 64-byte block into the running 8-word state. -/
def compressBlock (st : List Nat) (block : Bytes) : List Nat :=
  List.zipWith (fun x y => (x + y) % w32)
    st ((List.zip shaK (schedule block)).foldl roundStep st)

/-- Fold the compression function over the padded message, 64 bytes at a time. -/
def sha256Blocks (st : List Nat) (bs : Bytes) : List Nat :=
  if h : bs = [] then st
  else sha256Blocks (compressBlock st (bs.take 64)) (bs.drop 64)
termination_by bs.length
decreasing_by
  simp only [List.length_drop]
  have : bs.length ≠ 0 := fun hlen => h (List.eq_nil_of_length_eq_zero hlen)
  omega

/-- SHA-256 of an arbitrary byte string, as its 32 digest bytes. -/
def sha256 (msg : Bytes) : Bytes :=
  (sha256Blocks shaH0 (sha256pad msg)).foldr (fun wrd acc => be32 wrd ++ acc) []

/-- HMAC key preprocessing (RFC 2104, block size 64): hash an over-long key,
then zero-pad to exactly 64 bytes. -/
def hmacKeyBlock (key : Bytes) : Bytes :=
  (if 64 < key.length then sha256 key else key)
    ++ List.replicate (64 - (if 64 < key.length then sha256 key else key).length) 0

/-- `HMAC-SHA256(message, key) = H((K ⊕ opad) ‖ H((K ⊕ ipad) ‖ message))`
with `ipad = 0x36`, `opad = 0x5c` (RFC 2104; rendered as pseudocode in
`learning/01-jwt-security.md`). -/
def hmacSha256 (key msg : Bytes) : Bytes :=
  sha256 ((hmacKeyBlock key).map (fun b => b ^^^ 92)
    ++ sha256 ((hmacKeyBlock key).map (fun b => b ^^^ 54) ++ msg))

/-! ## base64url (RFC 4648 §5, no padding)

`golang-jwt` encodes every segment with Go's `base64.RawURLEncoding` and, by
default (`WithStrictDecoding` not set in `ParseToken`), decodes *leniently*:
non-zero unused trailing bits of the final character are dropped rather than
rejected, exactly as `encoding/base64` does outside `Strict()` mode.  The
decoder below mirrors that. -/

/-- The base64url character for a sextet (`A–Z`, `a–z`, `0–9`, `-`, `_`). -/
def b64char (v : Nat) : Nat :=
  if v < 26 then 65 + v
  else if v < 52 then 97 + (v - 26)
  else if v < 62 then 48 + (v - 52)
  else if v = 62 then 45
  else 95

/-- The sextet of a base64url character, or `none` off the alphabet. -/
def b64val (c : Nat) : Option Nat :=
  if 65 ≤ c ∧ c ≤ 90 then some (c - 65)
  else if 97 ≤ c ∧ c ≤ 122 then some (26 + (c - 97))
  else if 48 ≤ c ∧ c ≤ 57 then some (52 + (c - 48))
  else if c = 45 then some 62
  else if c = 95 then some 63
  else none

/-- base64url-encode without padding: 3 bytes → 4 characters, a 2-byte tail
→ 3 characters, a 1-byte tail → 2 characters. -/
def b64encode : Bytes → Bytes
  | b0 :: b1 :: b2 :: rest =>
      b64char (b0 / 4) :: b64char (b0 % 4 * 16 + b1 / 16)
        :: b64char (b1 % 16 * 4 + b2 / 64) :: b64char (b2 % 64) :: b64encode rest
  | [b0, b1] => [b64char (b0 / 4), b64char (b0 % 4 * 16 + b1 / 16), b64char (b1 % 16 * 4)]
  | [b0] => [b64char (b0 / 4), b64char (b0 % 4 * 16)]
  | [] => []

/-- base64url-decode without padding, leniently (Go `RawURLEncoding` outside
`Strict()` mode): unused trailing bits of a final partial group are dropped;
a single leftover character or a character off the alphabet is an error. -/
def b64decode : Bytes → Option Bytes
  | c0 :: c1 :: c2 :: c3 :: rest =>
      match b64val c0, b64val c1, b64val c2, b64val c3, b64decode rest with
      | some v0, some v1, some v2, some v3, some tail =>
          some ((v0 * 4 + v1 / 16) :: (v1 % 16 * 16 + v2 / 4) :: (v2 % 4 * 64 + v3) :: tail)
      | _, _, _, _, _ => none
  | [c0, c1, c2] =>
      match b64val c0, b64val c1, b64val c2 with
      | some v0, some v1, some v2 => some [v0 * 4 + v1 / 16, v1 % 16 * 16 + v2 / 4]
      | _, _, _ => none
  | [c0, c1] =>
      match b64val c0, b64val c1 with
      | some v0, some v1 => some [v0 * 4 + v1 / 16]
      | _, _ => none
  | [_] => none
  | [] => some []

/-! ## The wire form: three segments joined by `.`

`jwt.Parse` splits the presented string on the ASCII dot (byte 46) — rendered
as `strings.Split(tokenString, ".")` in `learning/01-jwt-security.md` — and
demands exactly three parts. -/

/-- Split a byte string at every dot (byte 46), like Go `strings.Split`. -/
def splitOnDot : Bytes → List Bytes
  | [] => [[]]
  | b :: rest =>
      if b = 46 then [] :: splitOnDot rest
      else
        match splitOnDot rest with
        | [] => [[b]]
        | s :: ss => (b :: s) :: ss

/-! ## The Claims payload and its JSON form

The signed payload of `pkg/jwt/jwt.go`'s `Claims` struct — shown decoded in
`learning/01-jwt-token.md` Q2 — carries `user_id`, `username`, `orig_iat` and
the embedded `jwt.RegisteredClaims` fields `exp`, `nbf`, `iat` (the remaining
registered claims are never set and `omitempty` drops them).  **There is no
token-kind field**: access and refresh tokens differ only in the duration
passed to `GenerateToken`.  Serialization follows `encoding/json` field order
(outer struct fields, then embedded `RegisteredClaims`); string escaping is
modelled for the two JSON metacharacters `"` and `\` (the HTML and
control-character escapes of `encoding/json` are orthogonal to every claim
checked here). -/

/-- The in-memory `Claims` struct of `pkg/jwt/jwt.go` (field names as in Go;
`ExpiresAt`/`NotBefore`/`IssuedAt` are the embedded `RegisteredClaims`). -/
structure Claims where
  UserID : Nat
  Username : Bytes
  OrigIat : Nat
  ExpiresAt : Nat
  NotBefore : Nat
  IssuedAt : Nat
deriving DecidableEq, Repr

/-- Bytes of an ASCII string literal (used only on 7-bit literals). -/
def ascii (s : String) : Bytes := s.data.map Char.toNat

/-- JSON decimal rendering, fuelled so that it reduces inside the kernel
(the fuel is structurally consumed; `natToDec` supplies enough of it). -/
def natToDecAux : Nat → Nat → Bytes
  | 0, _ => []
  | fuel + 1, n =>
      if n < 10 then [48 + n] else natToDecAux fuel (n / 10) ++ [48 + n % 10]

/-- JSON decimal rendering of a natural number. -/
def natToDec (n : Nat) : Bytes := natToDecAux (n + 1) n

/-- JSON string escaping of one byte: `"` and `\` get a backslash. -/
def escapeByte (b : Nat) : Bytes := if b = 34 ∨ b = 92 then [92, b] else [b]

/-- JSON string escaping of a byte string. -/
def escapeStr (s : Bytes) : Bytes := s.foldr (fun b acc => escapeByte b ++ acc) []

/-- Serialized `Claims`, the exact payload bytes `json.Marshal` produces:
`{"user_id":…,"username":"…","orig_iat":…,"exp":…,"nbf":…,"iat":…}`. -/
def serializeClaims (c : Claims) : Bytes :=
  ascii ("\x7b\"user_id\":") ++ natToDec c.UserID
    ++ ascii (",\"username\":\"") ++ escapeStr c.Username
    ++ ascii ("\",\"orig_iat\":") ++ natToDec c.OrigIat
    ++ ascii (",\"exp\":") ++ natToDec c.ExpiresAt
    ++ ascii (",\"nbf\":") ++ natToDec c.NotBefore
    ++ ascii (",\"iat\":") ++ natToDec c.IssuedAt
    ++ ascii ("\x7d")

/-- Greedily accumulate decimal digits (`acc` is the value so far). -/
def parseDigitsAux (acc : Nat) : Bytes → Nat × Bytes
  | b :: r =>
      if 48 ≤ b ∧ b ≤ 57 then parseDigitsAux (acc * 10 + (b - 48)) r else (acc, b :: r)
  | [] => (acc, [])

/-- Parse a decimal number (at least one digit) off the front. -/
def parseDigits : Bytes → Option (Nat × Bytes)
  | b :: r => if 48 ≤ b ∧ b ≤ 57 then some (parseDigitsAux (b - 48) r) else none
  | [] => none

/-- Parse a JSON string body up to its closing quote, unescaping `\"`, `\\`. -/
def parseJString : Bytes → Option (Bytes × Bytes)
  | [] => none
  | b :: r =>
      if b = 34 then some ([], r)
      else if b = 92 then
        match r with
        | [] => none
        | e :: r2 =>
            if e = 34 ∨ e = 92 then
              match parseJString r2 with
              | none => none
              | some (s, rest) => some (e :: s, rest)
            else none
      else
        match parseJString r with
        | none => none
        | some (s, rest) => some (b :: s, rest)

/-- Strip an expected literal off the front of a byte string. -/
def stripPre : Bytes → Bytes → Option Bytes
  | [], s => some s
  | _ :: _, [] => none
  | p :: ps, b :: bs => if b = p then stripPre ps bs else none

/-- Deserialize `Claims` from payload bytes: `json.Unmarshal` restricted to
the exact shape `serializeClaims` emits (the only payloads the embedded
pipeline ever feeds it after a successful signature check). -/
def parseClaims (s0 : Bytes) : Option Claims := do
  let s1 ← stripPre (ascii ("\x7b\"user_id\":")) s0
  let (uid, s2) := (← parseDigits s1)
  let s3 ← stripPre (ascii (",\"username\":\"")) s2
  let (un, s4) := (← parseJString s3)
  let s5 ← stripPre (ascii (",\"orig_iat\":")) s4
  let (oi, s6) := (← parseDigits s5)
  let s7 ← stripPre (ascii (",\"exp\":")) s6
  let (ex, s8) := (← parseDigits s7)
  let s9 ← stripPre (ascii (",\"nbf\":")) s8
  let (nb, s10) := (← parseDigits s9)
  let s11 ← stripPre (ascii (",\"iat\":")) s10
  let (ia, s12) := (← parseDigits s11)
  let s13 ← stripPre (ascii ("\x7d")) s12
  if s13 = [] then some ⟨uid, un, oi, ex, nb, ia⟩ else none

/-! ## Issuance — `GenerateToken`, `GenerateTokenPair`
(`pkg/jwt/jwt.go:37–51`, quoted at `learning/01-jwt-token.md:113–133`) -/

/-- The fixed JWT header `{"alg":"HS256","typ":"JWT"}`. -/
def headerJSON : Bytes := ascii ("\x7b\"alg\":\"HS256\",\"typ\":\"JWT\"\x7d")

/-- The base64url-encoded header segment. -/
def headerB64 : Bytes := b64encode headerJSON

/-- The `Claims` literal `GenerateToken` constructs from `now := time.Now()`:
`UserID`, `Username` as supplied, `OrigIat = IssuedAt = NotBefore = now`,
`ExpiresAt = now + duration`. -/
def mkClaims (userID : Nat) (username : Bytes) (duration now : Nat) : Claims :=
  { UserID := userID, Username := username, OrigIat := now,
    ExpiresAt := now + duration, NotBefore := now, IssuedAt := now }

/-- The signing input `header ++ "." ++ payload` for a payload. -/
def signedMessage (payload : Bytes) : Bytes :=
  headerB64 ++ 46 :: b64encode payload

/-- `GenerateToken(userID, username, duration)` at instant `now`, with the
injected secret: builds the Claims, signs `header.payload` with HMAC-SHA256
under the secret, and joins the three base64url segments with dots. -/
def GenerateToken (secret : Bytes) (userID : Nat) (username : Bytes)
    (duration now : Nat) : Bytes :=
  signedMessage (serializeClaims (mkClaims userID username duration now))
    ++ 46 :: b64encode (hmacSha256 secret
        (signedMessage (serializeClaims (mkClaims userID username duration now))))

/-- `15 * time.Minute`, the access-token lifetime, in seconds. -/
def accessTokenDuration : Nat := 900

/-- `7 * 24 * time.Hour`, the refresh-token lifetime, in seconds. -/
def refreshTokenDuration : Nat := 604800

/-- `GenerateTokenPair(userID, username)`: the access token (15 minutes) and
the refresh token (7 days), both issued at the same `now` for the same
principal (`pkg/jwt/jwt.go:75–88`, quoted at `learning/01-jwt-token.md:27–35`). -/
def GenerateTokenPair (secret : Bytes) (userID : Nat) (username : Bytes)
    (now : Nat) : Bytes × Bytes :=
  (GenerateToken secret userID username accessTokenDuration now,
   GenerateToken secret userID username refreshTokenDuration now)

/-! ## Validation — `ParseToken`
(`pkg/jwt/jwt.go:54–72`, quoted at `learning/01-jwt-token.md:265–289`; the
pipeline inside `jwt.ParseWithClaims` is rendered at
`learning/01-jwt-security.md:230–258`.)

The public error surface is exactly two values: `ErrExpiredToken` when
`errors.Is(err, jwt.ErrTokenExpired)`, and `ErrInvalidToken` for every other
failure — the source's own comment notes that `jwt.ErrTokenNotValidYet`
lands in the `ErrInvalidToken` branch.  Pipeline order follows `jwt/v5`
(and the repository's rendering): split, fixed HS256 header, signature
verification over the presented `header.payload` text, then temporal claim
validation with `exp` checked before `nbf`; a token is expired iff
`now ≥ exp` and not yet valid iff `now < nbf`. -/

/-- The two public error values of `pkg/jwt`. -/
inductive JwtError where
  | ErrInvalidToken
  | ErrExpiredToken
deriving DecidableEq, Repr

instance {ε α : Type} [DecidableEq ε] [DecidableEq α] : DecidableEq (Except ε α) :=
  fun x y =>
    match x, y with
    | .error a, .error b =>
        if h : a = b then .isTrue (by rw [h]) else .isFalse (fun he => h (by cases he; rfl))
    | .ok a, .ok b =>
        if h : a = b then .isTrue (by rw [h]) else .isFalse (fun he => h (by cases he; rfl))
    | .error _, .ok _ => .isFalse (fun he => Except.noConfusion he)
    | .ok _, .error _ => .isFalse (fun he => Except.noConfusion he)

/-- `ParseToken(tokenString)` at instant `now` with the injected secret. -/
def ParseToken (secret : Bytes) (tokenString : Bytes) (now : Nat) :
    Except JwtError Claims :=
  match splitOnDot tokenString with
  | [h, p, s] =>
      if h = headerB64 then
        match b64decode s with
        | none => .error .ErrInvalidToken
        | some sig =>
            if hmacSha256 secret (h ++ 46 :: p) = sig then
              match b64decode p with
              | none => .error .ErrInvalidToken
              | some pb =>
                  match parseClaims pb with
                  | none => .error .ErrInvalidToken
                  | some c =>
                      if c.ExpiresAt ≤ now then .error .ErrExpiredToken
                      else if now < c.NotBefore then .error .ErrInvalidToken
                      else .ok c
            else .error .ErrInvalidToken
      else .error .ErrInvalidToken
  | _ => .error .ErrInvalidToken

/-! ## The TokenPair response and the refresh operation -/

/-- The `TokenPair` wire struct (`idl/memogo.thrift:35–40`). -/
structure TokenPair where
  AccessToken : Bytes
  RefreshToken : Bytes
  AccessExpiresIn : Nat
  RefreshExpiresIn : Nat
deriving DecidableEq, Repr

/-- Modelled from the spec: `computeExpiresIn` is only *called* in the
handler snippet (`learning/01-jwt-token.md:14–19`); its body is not among
the source files.  Spec §4.2: `issuePair` "reports each token's remaining
seconds (`expires_at - now`)". -/
def computeExpiresIn (c : Claims) (now : Nat) : Nat := c.ExpiresAt - now

/-- The `TokenPair` the auth handler assembles from `GenerateTokenPair` plus
`computeExpiresIn` of each token's claims. -/
def buildTokenPair (secret : Bytes) (userID : Nat) (username : Bytes)
    (now : Nat) : TokenPair :=
  { AccessToken := (GenerateTokenPair secret userID username now).1,
    RefreshToken := (GenerateTokenPair secret userID username now).2,
    AccessExpiresIn := computeExpiresIn (mkClaims userID username accessTokenDuration now) now,
    RefreshExpiresIn := computeExpiresIn (mkClaims userID username refreshTokenDuration now) now }

/-- Modelled from the spec: the `/v1/auth/refresh` handler
(RefreshCoordinator, spec §4.4) is not among the source files.  Step 1
(validate, propagating failures unchanged) and step 3 (issue a fresh pair
for the recovered principal) follow the spec's words over the source's
operations.  Step 2 — "reject with `WRONG_TOKEN_KIND` if the recovered
Claims' `token_kind` is not REFRESH" — cannot be performed at all: the
source's `Claims` carry no token-kind field (see `serializeClaims` /
`GenerateToken`), so the recovered claims of an access and of a refresh
token are indistinguishable apart from their expiry. -/
def refresh (secret : Bytes) (refreshTokenString : Bytes) (now : Nat) :
    Except JwtError TokenPair :=
  match ParseToken secret refreshTokenString now with
  | .error e => .error e
  | .ok c => .ok (buildTokenPair secret c.UserID c.Username now)

/-! ## Startup secret loading
(`pkg/jwt/jwt.go:20–28` after the 2025-11-09 change, quoted in the
configuration notes: the former silent fallback to
`"memogo-default-secret-change-in-production"` is explicitly the *original*
code, replaced by an `init()` that reads `JWT_SECRET` once and panics when
it is empty, caching the bytes in the package-level `jwtSecret` that
`GetJWTSecret` returns.) -/

/-- UTF-8 bytes of one code point (what Go's `[]byte(string)` yields). -/
def utf8Bytes (n : Nat) : Bytes :=
  if n < 128 then [n]
  else if n < 2048 then [192 + n / 64, 128 + n % 64]
  else if n < 65536 then [224 + n / 4096, 128 + n / 64 % 64, 128 + n % 64]
  else [240 + n / 262144, 128 + n / 4096 % 64, 128 + n / 64 % 64, 128 + n % 64]

/-- UTF-8 bytes of a string, Go's `[]byte(s)`. -/
def strBytes (s : String) : Bytes :=
  s.data.foldr (fun c acc => utf8Bytes c.toNat ++ acc) []

/-- The abandoned compiled-in fallback secret of the original code. -/
def defaultDevSecret : Bytes :=
  strBytes ("memogo-default-secret-change-in-production")

/-- `pkg/jwt`'s `init()`: read `JWT_SECRET` from the environment (Go's
`os.Getenv` returns `""` both for unset and empty) and abort startup
(`panic`) when it is empty — never substituting any default; otherwise the
process-lifetime secret is exactly the environment value's bytes. -/
def jwtInit (envJWTSecret : String) : Except String Bytes :=
  if envJWTSecret = "" then
    .error ("JWT_SECRET environment variable is required")
  else .ok (strBytes envJWTSecret)

/-- Flip bit `i` (bit `i % 8` of byte `i / 8`) of a byte string. -/
def flipBit (bs : Bytes) (i : Nat) : Bytes :=
  bs.set (i / 8) (bs.getD (i / 8) 0 ^^^ 2 ^ (i % 8))

/-! ## Decimal and JSON-shape lemmas -/

/-- Decimal value accumulated over digit bytes (proof companion of
`parseDigitsAux`). -/
def decValAcc (acc : Nat) : Bytes → Nat
  | [] => acc
  | b :: r => decValAcc (acc * 10 + (b - 48)) r

/-- "The next byte, if any, is not a digit" — where greedy digit parsing stops. -/
def NonDigitStart : Bytes → Prop
  | [] => True
  | b :: _ => b < 48 ∨ 57 < b

/-! ## Single-bit tampering

The spec's tamper-evidence property quantifies over single-bit flips of the
payload or signature segment of an issued token.  The lemmas below analyse
`ParseToken` on `flipBit token i` without assuming anything about
HMAC-SHA256 beyond functionality: whenever the outcome is not outright
rejection, either a concrete HMAC collision is exhibited, or the flip hit
one of the unused trailing padding bits of the final base64url signature
character (which Go's lenient decoder drops), leaving the decoded signature
— and hence the whole validation outcome — unchanged. -/

/-- Two distinct messages with the same HMAC-SHA256 tag under `key`. -/
def HmacCollision (key : Bytes) : Prop :=
  ∃ m1 m2 : Bytes, m1 ≠ m2 ∧ hmacSha256 key m1 = hmacSha256 key m2

/-- The payload segment of the token `GenerateToken` issues. -/
def payloadSegment (uid : Nat) (un : Bytes) (D t0 : Nat) : Bytes :=
  b64encode (serializeClaims (mkClaims uid un D t0))

/-- The signature segment of the token `GenerateToken` issues. -/
def signatureSegment (secret : Bytes) (uid : Nat) (un : Bytes) (D t0 : Nat) : Bytes :=
  b64encode (hmacSha256 secret (signedMessage (serializeClaims (mkClaims uid un D t0))))

/-- Bit `i` of the issued token lies inside its payload segment. -/
def inPayloadRegion (uid : Nat) (un : Bytes) (D t0 i : Nat) : Prop :=
  headerB64.length + 1 ≤ i / 8
    ∧ i / 8 < headerB64.length + 1 + (payloadSegment uid un D t0).length

/-- Bit `i` of the issued token lies inside its signature segment. -/
def inSignatureRegion (secret : Bytes) (uid : Nat) (un : Bytes) (D t0 i : Nat) : Prop :=
  headerB64.length + 1 + (payloadSegment uid un D t0).length + 1 ≤ i / 8
    ∧ i / 8 < headerB64.length + 1 + (payloadSegment uid un D t0).length + 1
        + (signatureSegment secret uid un D t0).length

instance (uid : Nat) (un : Bytes) (D t0 i : Nat) :
    Decidable (inPayloadRegion uid un D t0 i) :=
  inferInstanceAs (Decidable (_ ∧ _))

instance (secret : Bytes) (uid : Nat) (un : Bytes) (D t0 i : Nat) :
    Decidable (inSignatureRegion secret uid un D t0 i) :=
  inferInstanceAs (Decidable (_ ∧ _))

/-! ## The spec's token kinds

The spec's ClaimsModel (§3) includes a `token_kind ∈ {ACCESS, REFRESH}`;
its `issue` (§4.2) takes a kind.  The source's Claims carry no such field
and `GenerateToken` takes no such parameter, so the spec's issuance
signature over the source's issuance necessarily discards the kind. -/

/-- The spec's token-kind enumeration (§3).  No corresponding field exists
in the source's `Claims`. -/
inductive TokenKind where
  | ACCESS
  | REFRESH
deriving DecidableEq, Repr

/-- The spec's `issue(principal, kind, duration, now)` signature (§4.2)
realized by the source's `GenerateToken`, which takes no kind: the kind
argument cannot influence the token. -/
def issueWithKind (secret : Bytes) (uid : Nat) (un : Bytes)
    (kind : TokenKind) (D t0 : Nat) : Bytes :=
  GenerateToken secret uid un D t0

/-- Every byte emitted by `be32` is a real byte. -/
theorem be32_valid (x : Nat) : ValidBytes (be32 x) := by
  intro b hb
  simp only [be32, List.mem_cons, List.not_mem_nil, or_false] at hb
  rcases hb with rfl | rfl | rfl | rfl <;> exact Nat.mod_lt _ (by omega)

/-- SHA-256 digests consist of real bytes. -/
theorem sha256_valid (msg : Bytes) : ValidBytes (sha256 msg) := by
  unfold sha256
  generalize sha256Blocks shaH0 (sha256pad msg) = ws
  induction ws with
  | nil => intro b hb; simp at hb
  | cons w ws ih =>
      intro b hb
      simp only [List.foldr_cons, List.mem_append] at hb
      rcases hb with hb | hb
      · exact be32_valid w b hb
      · exact ih b hb

/-- HMAC-SHA256 digests consist of real bytes. -/
theorem hmacSha256_valid (key msg : Bytes) : ValidBytes (hmacSha256 key msg) :=
  sha256_valid _

/-- The fuel is irrelevant once sufficient. -/
theorem natToDecAux_congr : ∀ (f1 f2 n : Nat), n < f1 → n < f2 →
    natToDecAux f1 n = natToDecAux f2 n
  | 0, _, _, h1, _ => absurd h1 (by omega)
  | _ + 1, 0, _, _, h2 => absurd h2 (by omega)
  | f1 + 1, f2 + 1, n, h1, h2 => by
      simp only [natToDecAux]
      by_cases h : n < 10
      · rw [if_pos h, if_pos h]
      · rw [if_neg h, if_neg h,
          natToDecAux_congr f1 f2 (n / 10) (by omega) (by omega)]

/-- The defining recursion of `natToDec`. -/
theorem natToDec_eq (n : Nat) :
    natToDec n = if n < 10 then [48 + n] else natToDec (n / 10) ++ [48 + n % 10] := by
  show natToDecAux (n + 1) n = _
  simp only [natToDecAux]
  by_cases h : n < 10
  · rw [if_pos h, if_pos h]
  · rw [if_neg h, if_neg h,
      natToDecAux_congr n (n / 10 + 1) (n / 10) (by omega) (by omega)]
    rfl

/-! ## Splitting lemmas -/

/-- A dot-free byte string splits into itself alone. -/
theorem splitOnDot_nodot : ∀ (a : Bytes), 46 ∉ a → splitOnDot a = [a]
  | [], _ => rfl
  | b :: rest, h => by
      have hb : ¬ b = 46 := fun e => h (e ▸ List.mem_cons_self b rest)
      have ih := splitOnDot_nodot rest (fun hm => h (List.mem_cons_of_mem _ hm))
      simp [splitOnDot, hb, ih]

/-- Splitting walks past a dot-free chunk and its separating dot. -/
theorem splitOnDot_sep : ∀ (a r : Bytes), 46 ∉ a →
    splitOnDot (a ++ 46 :: r) = a :: splitOnDot r
  | [], r, _ => by simp [splitOnDot]
  | b :: a', r, h => by
      have hb : ¬ b = 46 := fun e => h (e ▸ List.mem_cons_self b a')
      have ih := splitOnDot_sep a' r (fun hm => h (List.mem_cons_of_mem _ hm))
      simp [splitOnDot, hb, ih]

/-- Three dot-free segments joined by dots split into exactly those three. -/
theorem splitOnDot_three (h p s : Bytes) (hh : 46 ∉ h) (hp : 46 ∉ p)
    (hs : 46 ∉ s) : splitOnDot (h ++ 46 :: (p ++ 46 :: s)) = [h, p, s] := by
  rw [splitOnDot_sep _ _ hh, splitOnDot_sep _ _ hp, splitOnDot_nodot _ hs]

/-- Four dot-free segments joined by dots split into exactly those four. -/
theorem splitOnDot_four (h p q s : Bytes) (hh : 46 ∉ h) (hp : 46 ∉ p)
    (hq : 46 ∉ q) (hs : 46 ∉ s) :
    splitOnDot (h ++ 46 :: (p ++ 46 :: (q ++ 46 :: s))) = [h, p, q, s] := by
  rw [splitOnDot_sep _ _ hh, splitOnDot_sep _ _ hp, splitOnDot_sep _ _ hq,
    splitOnDot_nodot _ hs]

/-! ## base64url lemmas -/

/-- On sextets, `b64char` is inverted by `b64val`, avoids the dot, and emits
a byte. -/
theorem b64char_spec : ∀ v < 64,
    b64val (b64char v) = some v ∧ b64char v ≠ 46 ∧ b64char v < 256 := by decide

/-- No character of a base64url encoding is a dot. -/
theorem b64encode_ne_dot : ∀ (bs : Bytes), ValidBytes bs →
    ∀ c ∈ b64encode bs, c ≠ 46
  | [], _ => by simp [b64encode]
  | [b0], h => by
      have h0 : b0 < 256 := h _ (by simp)
      have c0 := (b64char_spec (b0 / 4) (by omega)).2.1
      have c1 := (b64char_spec (b0 % 4 * 16) (by omega)).2.1
      intro c hc
      rcases (by simpa [b64encode] using hc : c = _ ∨ c = _) with rfl | rfl <;>
        assumption
  | [b0, b1], h => by
      have h0 : b0 < 256 := h _ (by simp)
      have h1 : b1 < 256 := h _ (by simp)
      have c0 := (b64char_spec (b0 / 4) (by omega)).2.1
      have c1 := (b64char_spec (b0 % 4 * 16 + b1 / 16) (by omega)).2.1
      have c2 := (b64char_spec (b1 % 16 * 4) (by omega)).2.1
      intro c hc
      rcases (by simpa [b64encode] using hc : c = _ ∨ c = _ ∨ c = _) with
        rfl | rfl | rfl <;> assumption
  | b0 :: b1 :: b2 :: (b3 :: rest), h => by
      have h0 : b0 < 256 := h _ (by simp)
      have h1 : b1 < 256 := h _ (by simp)
      have h2 : b2 < 256 := h _ (by simp)
      have c0 := (b64char_spec (b0 / 4) (by omega)).2.1
      have c1 := (b64char_spec (b0 % 4 * 16 + b1 / 16) (by omega)).2.1
      have c2 := (b64char_spec (b1 % 16 * 4 + b2 / 64) (by omega)).2.1
      have c3 := (b64char_spec (b2 % 64) (by omega)).2.1
      have ih := b64encode_ne_dot (b3 :: rest)
        (fun b hb => h b (by simp only [List.mem_cons] at hb ⊢; tauto))
      intro c hc
      rcases (by simpa [b64encode] using hc :
          c = _ ∨ c = _ ∨ c = _ ∨ c = _ ∨ c ∈ b64encode (b3 :: rest)) with
        rfl | rfl | rfl | rfl | hm
      · assumption
      · assumption
      · assumption
      · assumption
      · exact ih c hm
  | [b0, b1, b2], h => by
      have h0 : b0 < 256 := h _ (by simp)
      have h1 : b1 < 256 := h _ (by simp)
      have h2 : b2 < 256 := h _ (by simp)
      have c0 := (b64char_spec (b0 / 4) (by omega)).2.1
      have c1 := (b64char_spec (b0 % 4 * 16 + b1 / 16) (by omega)).2.1
      have c2 := (b64char_spec (b1 % 16 * 4 + b2 / 64) (by omega)).2.1
      have c3 := (b64char_spec (b2 % 64) (by omega)).2.1
      intro c hc
      rcases (by simpa [b64encode] using hc : c = _ ∨ c = _ ∨ c = _ ∨ c = _) with
        rfl | rfl | rfl | rfl <;> assumption

/-- A base64url encoding of real bytes never contains the dot. -/
theorem b64encode_nodot (bs : Bytes) (h : ValidBytes bs) : 46 ∉ b64encode bs :=
  fun hm => b64encode_ne_dot bs h 46 hm rfl

/-- Decoding inverts encoding on real bytes (round trip). -/
theorem b64decode_b64encode : ∀ (bs : Bytes), ValidBytes bs →
    b64decode (b64encode bs) = some bs
  | [], _ => rfl
  | [b0], h => by
      have h0 : b0 < 256 := h _ (by simp)
      have e0 := (b64char_spec (b0 / 4) (by omega)).1
      have e1 := (b64char_spec (b0 % 4 * 16) (by omega)).1
      simp only [b64encode, b64decode, e0, e1]
      congr 1
      simp only [List.cons.injEq, and_true]
      omega
  | [b0, b1], h => by
      have h0 : b0 < 256 := h _ (by simp)
      have h1 : b1 < 256 := h _ (by simp)
      have e0 := (b64char_spec (b0 / 4) (by omega)).1
      have e1 := (b64char_spec (b0 % 4 * 16 + b1 / 16) (by omega)).1
      have e2 := (b64char_spec (b1 % 16 * 4) (by omega)).1
      simp only [b64encode, b64decode, e0, e1, e2]
      congr 1
      simp only [List.cons.injEq, and_true]
      constructor
      · omega
      · omega
  | b0 :: b1 :: b2 :: (b3 :: rest), h => by
      have h0 : b0 < 256 := h _ (by simp)
      have h1 : b1 < 256 := h _ (by simp)
      have h2 : b2 < 256 := h _ (by simp)
      have e0 := (b64char_spec (b0 / 4) (by omega)).1
      have e1 := (b64char_spec (b0 % 4 * 16 + b1 / 16) (by omega)).1
      have e2 := (b64char_spec (b1 % 16 * 4 + b2 / 64) (by omega)).1
      have e3 := (b64char_spec (b2 % 64) (by omega)).1
      have ih := b64decode_b64encode (b3 :: rest)
        (fun b hb => h b (by simp only [List.mem_cons] at hb ⊢; tauto))
      simp only [b64encode, b64decode, e0, e1, e2, e3, ih]
      congr 1
      simp only [List.cons.injEq]
      refine ⟨by omega, by omega, by omega, trivial⟩
  | [b0, b1, b2], h => by
      have h0 : b0 < 256 := h _ (by simp)
      have h1 : b1 < 256 := h _ (by simp)
      have h2 : b2 < 256 := h _ (by simp)
      have e0 := (b64char_spec (b0 / 4) (by omega)).1
      have e1 := (b64char_spec (b0 % 4 * 16 + b1 / 16) (by omega)).1
      have e2 := (b64char_spec (b1 % 16 * 4 + b2 / 64) (by omega)).1
      have e3 := (b64char_spec (b2 % 64) (by omega)).1
      simp only [b64encode, b64decode, e0, e1, e2, e3]
      congr 1
      simp only [List.cons.injEq, and_true]
      refine ⟨by omega, by omega, by omega⟩

/-- `decValAcc` distributes over append. -/
theorem decValAcc_append (d : Bytes) : ∀ (e : Bytes) (a : Nat),
    decValAcc a (d ++ e) = decValAcc (decValAcc a d) e := by
  induction d with
  | nil => intro e a; rfl
  | cons b d' ih =>
      intro e a
      exact ih e (a * 10 + (b - 48))

/-- Every byte of a decimal rendering is an ASCII digit. -/
theorem natToDec_digits (n : Nat) : ∀ b ∈ natToDec n, 48 ≤ b ∧ b ≤ 57 := by
  by_cases h : n < 10
  · intro b hb
    rw [natToDec_eq, if_pos h] at hb
    simp only [List.mem_singleton] at hb
    omega
  · intro b hb
    rw [natToDec_eq, if_neg h] at hb
    rcases List.mem_append.mp hb with hb | hb
    · exact natToDec_digits (n / 10) b hb
    · simp only [List.mem_singleton] at hb
      omega
termination_by n
decreasing_by omega

/-- Decimal renderings are never empty. -/
theorem natToDec_ne_nil (n : Nat) : natToDec n ≠ [] := by
  rw [natToDec_eq]
  split <;> simp

/-- Unfolding equation of `decValAcc` on the empty list. -/
theorem decValAcc_nil (acc : Nat) : decValAcc acc [] = acc := rfl

/-- Unfolding equation of `decValAcc` on a cons. -/
theorem decValAcc_cons (acc b : Nat) (r : Bytes) :
    decValAcc acc (b :: r) = decValAcc (acc * 10 + (b - 48)) r := rfl

/-- The value accumulated over a decimal rendering. -/
theorem decValAcc_natToDec : ∀ (n acc : Nat),
    decValAcc acc (natToDec n) = acc * 10 ^ (natToDec n).length + n := by
  intro n
  induction n using Nat.strong_induction_on with
  | _ n ih =>
    intro acc
    by_cases h : n < 10
    · rw [natToDec_eq, if_pos h, decValAcc_cons, decValAcc_nil]
      simp only [List.length_singleton, pow_one]
      omega
    · rw [natToDec_eq, if_neg h, decValAcc_append, ih (n / 10) (by omega),
        decValAcc_cons, decValAcc_nil]
      simp only [List.length_append, List.length_singleton]
      have h1 : 48 + n % 10 - 48 = n % 10 := by omega
      rw [h1, pow_succ]
      have h2 : n / 10 * 10 + n % 10 = n := by omega
      calc (acc * 10 ^ (natToDec (n / 10)).length + n / 10) * 10 + n % 10
          = acc * (10 ^ (natToDec (n / 10)).length * 10) + (n / 10 * 10 + n % 10) := by
            ring
        _ = acc * (10 ^ (natToDec (n / 10)).length * 10) + n := by
            rw [h2]

/-- Unfolding equation of `parseDigitsAux` on a cons. -/
theorem parseDigitsAux_cons (a b : Nat) (r : Bytes) :
    parseDigitsAux a (b :: r) =
      if 48 ≤ b ∧ b ≤ 57 then parseDigitsAux (a * 10 + (b - 48)) r
      else (a, b :: r) := rfl

/-- Greedy digit accumulation walks through an all-digit chunk. -/
theorem parseDigitsAux_digits (d : Bytes) : ∀ (r : Bytes) (a : Nat),
    (∀ b ∈ d, 48 ≤ b ∧ b ≤ 57) →
    parseDigitsAux a (d ++ r) = parseDigitsAux (decValAcc a d) r := by
  induction d with
  | nil => intro r a _; rfl
  | cons b d' ih =>
      intro r a h
      have hb := h b (List.mem_cons_self b d')
      rw [List.cons_append, parseDigitsAux_cons, if_pos ⟨hb.1, hb.2⟩, decValAcc_cons]
      exact ih r _ (fun x hx => h x (List.mem_cons_of_mem _ hx))

/-- Greedy digit accumulation stops at a non-digit (or the end). -/
theorem parseDigitsAux_stop (a : Nat) : ∀ (r : Bytes), NonDigitStart r →
    parseDigitsAux a r = (a, r)
  | [], _ => rfl
  | b :: r', h => by
      have hnd : ¬ (48 ≤ b ∧ b ≤ 57) := by
        rcases (h : b < 48 ∨ 57 < b) with h' | h' <;> omega
      rw [parseDigitsAux_cons, if_neg hnd]

/-- Parsing a decimal rendering off the front recovers the number, provided
what follows does not begin with a digit. -/
theorem parseDigits_natToDec (n : Nat) (r : Bytes) (hr : NonDigitStart r) :
    parseDigits (natToDec n ++ r) = some (n, r) := by
  rcases hd : natToDec n with _ | ⟨b, d'⟩
  · exact absurd hd (natToDec_ne_nil n)
  · have hdig : ∀ x ∈ natToDec n, 48 ≤ x ∧ x ≤ 57 := natToDec_digits n
    rw [hd] at hdig
    have hb := hdig b (List.mem_cons_self b d')
    simp only [List.cons_append, parseDigits]
    rw [if_pos ⟨hb.1, hb.2⟩]
    rw [parseDigitsAux_digits d' r _ (fun x hx => hdig x (List.mem_cons_of_mem _ hx))]
    rw [parseDigitsAux_stop _ r hr]
    have hv : decValAcc (b - 48) d' = n := by
      have h0 := decValAcc_natToDec n 0
      rw [hd, decValAcc_cons, show 0 * 10 + (b - 48) = b - 48 by omega] at h0
      simpa using h0
    rw [hv]

/-- One-step equation: a quote closes the string body. -/
theorem parseJString_quote (r : Bytes) : parseJString (34 :: r) = some ([], r) := by
  unfold parseJString
  simp

/-- One-step equation: a backslash escapes a quote or backslash. -/
theorem parseJString_esc (e : Nat) (r : Bytes) (he : e = 34 ∨ e = 92) :
    parseJString (92 :: (e :: r)) =
      match parseJString r with
      | none => none
      | some (s, rest) => some (e :: s, rest) := by
  conv_lhs => rw [parseJString.eq_def]
  simp [he]

/-- One-step equation: an ordinary byte is taken verbatim. -/
theorem parseJString_other (b : Nat) (r : Bytes) (h1 : ¬ b = 34)
    (h2 : ¬ b = 92) :
    parseJString (b :: r) =
      match parseJString r with
      | none => none
      | some (s, rest) => some (b :: s, rest) := by
  conv_lhs => rw [parseJString.eq_def]
  simp [h1, h2]

/-- Parsing an escaped JSON string body up to its closing quote recovers the
original bytes. -/
theorem parseJString_escape : ∀ (u r : Bytes),
    parseJString (escapeStr u ++ 34 :: r) = some (u, r)
  | [], r => parseJString_quote r
  | b :: u', r => by
      have ih := parseJString_escape u' r
      rw [show escapeStr (b :: u') = escapeByte b ++ escapeStr u' from rfl]
      by_cases hb : b = 34 ∨ b = 92
      · rw [escapeByte, if_pos hb]
        show parseJString (92 :: (b :: (escapeStr u' ++ 34 :: r))) = some (b :: u', r)
        rw [parseJString_esc b _ hb, ih]
      · push_neg at hb
        rw [escapeByte, if_neg (by tauto)]
        show parseJString (b :: (escapeStr u' ++ 34 :: r)) = some (b :: u', r)
        rw [parseJString_other b _ hb.1 hb.2, ih]

/-- Stripping an expected literal off a string that starts with it. -/
theorem stripPre_append : ∀ (p r : Bytes), stripPre p (p ++ r) = some r
  | [], _ => rfl
  | b :: p', r => by simp [stripPre, stripPre_append p' r]

/-- Stripping a literal off exactly itself. -/
theorem stripPre_self (p : Bytes) : stripPre p p = some [] := by
  have := stripPre_append p []
  simpa using this

/-- Quote-splitting of the literal that follows the username field. -/
theorem ascii_quote_origiat :
    ascii ("\",\"orig_iat\":") = 34 :: ascii (",\"orig_iat\":") := by decide

/-- The username literal starts with a comma, not a digit. -/
theorem nds_username (r : Bytes) :
    NonDigitStart (ascii (",\"username\":\"") ++ r) := Or.inl (by decide)

/-- The exp literal starts with a comma, not a digit. -/
theorem nds_exp (r : Bytes) : NonDigitStart (ascii (",\"exp\":") ++ r) :=
  Or.inl (by decide)

/-- The nbf literal starts with a comma, not a digit. -/
theorem nds_nbf (r : Bytes) : NonDigitStart (ascii (",\"nbf\":") ++ r) :=
  Or.inl (by decide)

/-- The iat literal starts with a comma, not a digit. -/
theorem nds_iat (r : Bytes) : NonDigitStart (ascii (",\"iat\":") ++ r) :=
  Or.inl (by decide)

/-- The closing brace is not a digit. -/
theorem nds_close : NonDigitStart (ascii ("\x7d")) := Or.inr (by decide)

/-- Deserializing a serialized `Claims` recovers it exactly. -/
theorem parseClaims_serializeClaims (c : Claims) :
    parseClaims (serializeClaims c) = some c := by
  obtain ⟨uid, un, oi, ex, nb, ia⟩ := c
  simp only [serializeClaims, parseClaims, List.append_assoc, ascii_quote_origiat,
    List.cons_append]
  simp only [stripPre_append, stripPre_self, parseDigits_natToDec,
    parseJString_escape, nds_username, nds_exp, nds_nbf, nds_iat, nds_close,
    Option.bind_eq_bind, Option.some_bind, ite_true]

/-! ## Byte-validity of the serialized payload -/

/-- Decimal renderings are real bytes. -/
theorem natToDec_valid (n : Nat) : ValidBytes (natToDec n) := by
  intro b hb
  have := natToDec_digits n b hb
  omega

/-- Escaping real bytes yields real bytes. -/
theorem escapeStr_valid (u : Bytes) (h : ValidBytes u) : ValidBytes (escapeStr u) := by
  induction u with
  | nil => intro b hb; simp [escapeStr] at hb
  | cons x u' ih =>
      intro b hb
      rw [show escapeStr (x :: u') = escapeByte x ++ escapeStr u' from rfl] at hb
      rcases List.mem_append.mp hb with hb | hb
      · have hx : x < 256 := h x (List.mem_cons_self x u')
        rw [escapeByte] at hb
        split at hb <;> simp only [List.mem_cons, List.not_mem_nil, or_false] at hb
        · rcases hb with rfl | rfl <;> omega
        · rcases hb with rfl; omega
      · exact ih (fun y hy => h y (List.mem_cons_of_mem _ hy)) b hb

/-- A serialized `Claims` whose username is real bytes is real bytes. -/
theorem serializeClaims_valid (c : Claims) (h : ValidBytes c.Username) :
    ValidBytes (serializeClaims c) := by
  intro b hb
  simp only [serializeClaims, List.append_assoc, List.mem_append] at hb
  rcases hb with hb | hb | hb | hb | hb | hb | hb | hb | hb | hb | hb | hb | hb
  · exact (by decide : ValidBytes (ascii ("\x7b\"user_id\":"))) b hb
  · exact natToDec_valid _ b hb
  · exact (by decide : ValidBytes (ascii (",\"username\":\""))) b hb
  · exact escapeStr_valid _ h b hb
  · exact (by decide : ValidBytes (ascii ("\",\"orig_iat\":"))) b hb
  · exact natToDec_valid _ b hb
  · exact (by decide : ValidBytes (ascii (",\"exp\":"))) b hb
  · exact natToDec_valid _ b hb
  · exact (by decide : ValidBytes (ascii (",\"nbf\":"))) b hb
  · exact natToDec_valid _ b hb
  · exact (by decide : ValidBytes (ascii (",\"iat\":"))) b hb
  · exact natToDec_valid _ b hb
  · exact (by decide : ValidBytes (ascii ("\x7d"))) b hb

/-- The encoded header contains no dot. -/
theorem headerB64_nodot : (46 : Nat) ∉ headerB64 := by decide

/-! ## The issued token under the validator -/

/-- An issued token decomposes into its three dot-joined segments. -/
theorem GenerateToken_decomp (secret : Bytes) (uid : Nat) (un : Bytes)
    (D t0 : Nat) :
    GenerateToken secret uid un D t0 =
      headerB64 ++ 46 :: (b64encode (serializeClaims (mkClaims uid un D t0))
        ++ 46 :: b64encode (hmacSha256 secret
            (signedMessage (serializeClaims (mkClaims uid un D t0))))) := by
  simp [GenerateToken, signedMessage, List.append_assoc]

/-- Splitting an issued token yields header, payload and signature segments. -/
theorem splitOnDot_GenerateToken (secret : Bytes) (uid : Nat) (un : Bytes)
    (D t0 : Nat) (hun : ValidBytes un) :
    splitOnDot (GenerateToken secret uid un D t0) =
      [headerB64, b64encode (serializeClaims (mkClaims uid un D t0)),
       b64encode (hmacSha256 secret
         (signedMessage (serializeClaims (mkClaims uid un D t0))))] := by
  rw [GenerateToken_decomp]
  exact splitOnDot_three _ _ _ headerB64_nodot
    (b64encode_nodot _ (serializeClaims_valid _ hun))
    (b64encode_nodot _ (hmacSha256_valid _ _))

/-- Master evaluation of `ParseToken` on an issued token: the signature always
verifies, so the outcome is decided purely by the temporal checks — expired
from `t0 + D`, not-yet-valid (as `ErrInvalidToken`) before `t0`, and the
embedded claims otherwise. -/
theorem ParseToken_GenerateToken (secret : Bytes) (uid : Nat) (un : Bytes)
    (D t0 now : Nat) (hun : ValidBytes un) :
    ParseToken secret (GenerateToken secret uid un D t0) now =
      if t0 + D ≤ now then .error .ErrExpiredToken
      else if now < t0 then .error .ErrInvalidToken
      else .ok (mkClaims uid un D t0) := by
  simp only [ParseToken, splitOnDot_GenerateToken secret uid un D t0 hun,
    signedMessage,
    b64decode_b64encode _ (hmacSha256_valid secret _),
    b64decode_b64encode _ (serializeClaims_valid (mkClaims uid un D t0) hun),
    parseClaims_serializeClaims, eq_self_iff_true, if_true]
  rfl

/-- An issued token validates inside its window, returning its claims. -/
theorem parse_generate_ok (secret : Bytes) (uid : Nat) (un : Bytes)
    (D t0 now : Nat) (hun : ValidBytes un) (h1 : t0 ≤ now) (h2 : now < t0 + D) :
    ParseToken secret (GenerateToken secret uid un D t0) now =
      .ok (mkClaims uid un D t0) := by
  rw [ParseToken_GenerateToken secret uid un D t0 now hun,
    if_neg (by omega), if_neg (by omega)]

/-- An issued token validated at or after `t0 + D` is `ErrExpiredToken`. -/
theorem parse_generate_expired (secret : Bytes) (uid : Nat) (un : Bytes)
    (D t0 now : Nat) (hun : ValidBytes un) (h : t0 + D ≤ now) :
    ParseToken secret (GenerateToken secret uid un D t0) now =
      .error .ErrExpiredToken := by
  rw [ParseToken_GenerateToken secret uid un D t0 now hun, if_pos h]

/-- An issued token validated before `t0` (future `nbf`) is `ErrInvalidToken`
— the *same* error value as a malformed token. -/
theorem parse_generate_notyet (secret : Bytes) (uid : Nat) (un : Bytes)
    (D t0 now : Nat) (hun : ValidBytes un) (h : now < t0) :
    ParseToken secret (GenerateToken secret uid un D t0) now =
      .error .ErrInvalidToken := by
  rw [ParseToken_GenerateToken secret uid un D t0 now hun,
    if_neg (by omega), if_pos h]

/-- The issued token is its three segments joined by dots. -/
theorem GenerateToken_segments (secret : Bytes) (uid : Nat) (un : Bytes)
    (D t0 : Nat) :
    GenerateToken secret uid un D t0 =
      headerB64 ++ 46 :: (payloadSegment uid un D t0
        ++ 46 :: signatureSegment secret uid un D t0) :=
  GenerateToken_decomp secret uid un D t0

/-- The payload segment contains no dot. -/
theorem payloadSegment_nodot (uid : Nat) (un : Bytes) (D t0 : Nat)
    (hun : ValidBytes un) : (46 : Nat) ∉ payloadSegment uid un D t0 :=
  b64encode_nodot _ (serializeClaims_valid _ hun)

/-- The signature segment contains no dot. -/
theorem signatureSegment_nodot (secret : Bytes) (uid : Nat) (un : Bytes)
    (D t0 : Nat) : (46 : Nat) ∉ signatureSegment secret uid un D t0 :=
  b64encode_nodot _ (hmacSha256_valid _ _)

/-- Decoding the signature segment recovers the tag over `header.payload`. -/
theorem b64decode_signatureSegment (secret : Bytes) (uid : Nat) (un : Bytes)
    (D t0 : Nat) :
    b64decode (signatureSegment secret uid un D t0)
      = some (hmacSha256 secret (headerB64 ++ 46 :: payloadSegment uid un D t0)) :=
  b64decode_b64encode _ (hmacSha256_valid _ _)

/-- Decoding the payload segment recovers the serialized claims. -/
theorem b64decode_payloadSegment (uid : Nat) (un : Bytes) (D t0 : Nat)
    (hun : ValidBytes un) :
    b64decode (payloadSegment uid un D t0)
      = some (serializeClaims (mkClaims uid un D t0)) :=
  b64decode_b64encode _ (serializeClaims_valid _ hun)

/-- `getD` at the seam of an append. -/
theorem getD_append_len : ∀ (pre : Bytes) (b : Nat) (suf : Bytes),
    (pre ++ b :: suf).getD pre.length 0 = b
  | [], _, _ => rfl
  | x :: pre', b, suf => by
      show (x :: (pre' ++ b :: suf)).getD (pre'.length + 1) 0 = b
      rw [List.getD_cons_succ]
      exact getD_append_len pre' b suf

/-- `set` at the seam of an append. -/
theorem set_append_len : ∀ (pre : Bytes) (b v : Nat) (suf : Bytes),
    (pre ++ b :: suf).set pre.length v = pre ++ v :: suf
  | [], _, _, _ => rfl
  | x :: pre', b, v, suf => congrArg (List.cons x) (set_append_len pre' b v suf)

/-- Flipping bit `i` when byte `i / 8` sits just past `pre`. -/
theorem flipBit_split (pre : Bytes) (b : Nat) (suf : Bytes) (i : Nat)
    (hq : i / 8 = pre.length) :
    flipBit (pre ++ b :: suf) i = pre ++ (b ^^^ 2 ^ (i % 8)) :: suf := by
  unfold flipBit
  rw [hq, getD_append_len, set_append_len]

/-- A list decomposed around position `j`. -/
theorem take_getD_drop (l : Bytes) (j : Nat) (h : j < l.length) :
    l = l.take j ++ l.getD j 0 :: l.drop (j + 1) := by
  conv_lhs => rw [← List.take_append_drop j l]
  rw [List.getD_eq_getElem l 0 h, ← List.drop_eq_getElem_cons h]

/-- XOR with a power of two changes the value. -/
theorem xor_pow_ne_self (a k : Nat) : a ^^^ 2 ^ k ≠ a := by
  intro h
  have h2 : a ^^^ (a ^^^ 2 ^ k) = a ^^^ a := congrArg (a ^^^ ·) h
  rw [← Nat.xor_assoc, Nat.xor_self, Nat.zero_xor] at h2
  exact absurd h2 (by positivity : (0 : Nat) < 2 ^ k).ne'

/-- The issued token decomposed around byte `j` of its payload segment. -/
theorem GenerateToken_around_payload (secret : Bytes) (uid : Nat) (un : Bytes)
    (D t0 j : Nat) (hj : j < (payloadSegment uid un D t0).length) :
    GenerateToken secret uid un D t0 =
      (headerB64 ++ 46 :: (payloadSegment uid un D t0).take j)
        ++ (payloadSegment uid un D t0).getD j 0
          :: ((payloadSegment uid un D t0).drop (j + 1)
            ++ 46 :: signatureSegment secret uid un D t0) := by
  rw [GenerateToken_segments]
  conv_lhs => rw [take_getD_drop (payloadSegment uid un D t0) j hj]
  simp [List.append_assoc]

/-- The issued token decomposed around byte `j` of its signature segment. -/
theorem GenerateToken_around_sig (secret : Bytes) (uid : Nat) (un : Bytes)
    (D t0 j : Nat) (hj : j < (signatureSegment secret uid un D t0).length) :
    GenerateToken secret uid un D t0 =
      (headerB64 ++ 46 :: (payloadSegment uid un D t0
          ++ 46 :: (signatureSegment secret uid un D t0).take j))
        ++ (signatureSegment secret uid un D t0).getD j 0
          :: (signatureSegment secret uid un D t0).drop (j + 1) := by
  rw [GenerateToken_segments]
  conv_lhs => rw [take_getD_drop (signatureSegment secret uid un D t0) j hj]
  simp [List.append_assoc]

/-- Staged evaluation of `ParseToken` on any token whose split yields the
canonical header, the genuine payload segment, and an arbitrary signature
segment `s'`: inside the validity window the outcome is decided entirely by
whether `s'` decodes to the recomputed tag. -/
theorem ParseToken_goodPayload (secret : Bytes) (uid : Nat) (un : Bytes)
    (D t0 now : Nat) (hun : ValidBytes un) (h1 : t0 ≤ now) (h2 : now < t0 + D)
    (tok s' : Bytes)
    (hsp : splitOnDot tok = [headerB64, payloadSegment uid un D t0, s']) :
    ParseToken secret tok now =
      match b64decode s' with
      | none => .error .ErrInvalidToken
      | some w =>
          if hmacSha256 secret (headerB64 ++ 46 :: payloadSegment uid un D t0) = w
          then .ok (mkClaims uid un D t0)
          else .error .ErrInvalidToken := by
  simp only [ParseToken, hsp, eq_self_iff_true, if_true]
  cases hdec : b64decode s' with
  | none => rfl
  | some w =>
      by_cases hw : hmacSha256 secret (headerB64 ++ 46 :: payloadSegment uid un D t0) = w
      · simp only [hw, eq_self_iff_true, if_true]
        simp only [b64decode_payloadSegment uid un D t0 hun, parseClaims_serializeClaims]
        rw [if_neg (by simp only [mkClaims]; omega),
          if_neg (by simp only [mkClaims]; omega)]
      · simp only [hw, ite_false]

/-- A payload-segment bit flip that turns its byte into a dot: the token
splits into four segments and is rejected as malformed — `ErrInvalidToken`,
at any validation time. -/
theorem flip_payload_dot (secret : Bytes) (uid : Nat) (un : Bytes)
    (D t0 now i : Nat) (hun : ValidBytes un)
    (hq : headerB64.length + 1 ≤ i / 8)
    (hlt : i / 8 < headerB64.length + 1 + (payloadSegment uid un D t0).length)
    (hdot : (payloadSegment uid un D t0).getD (i / 8 - (headerB64.length + 1)) 0
        ^^^ 2 ^ (i % 8) = 46) :
    ParseToken secret (flipBit (GenerateToken secret uid un D t0) i) now =
      .error .ErrInvalidToken := by
  set j := i / 8 - (headerB64.length + 1) with hjdef
  have hj : j < (payloadSegment uid un D t0).length := by omega
  rw [GenerateToken_around_payload secret uid un D t0 j hj]
  rw [flipBit_split _ _ _ _ (by
    simp only [List.length_append, List.length_cons, List.length_take]
    omega)]
  rw [hdot]
  have hsplit : splitOnDot
      ((headerB64 ++ 46 :: (payloadSegment uid un D t0).take j)
        ++ 46 :: ((payloadSegment uid un D t0).drop (j + 1)
          ++ 46 :: signatureSegment secret uid un D t0))
      = [headerB64, (payloadSegment uid un D t0).take j,
         (payloadSegment uid un D t0).drop (j + 1),
         signatureSegment secret uid un D t0] := by
    have h4 := splitOnDot_four headerB64 ((payloadSegment uid un D t0).take j)
      ((payloadSegment uid un D t0).drop (j + 1))
      (signatureSegment secret uid un D t0) headerB64_nodot
      (fun hm => payloadSegment_nodot uid un D t0 hun (List.take_subset _ _ hm))
      (fun hm => payloadSegment_nodot uid un D t0 hun (List.drop_subset _ _ hm))
      (signatureSegment_nodot secret uid un D t0)
    simpa [List.append_assoc] using h4
  simp only [ParseToken, hsplit]

/-- A payload-segment bit flip whose byte stays off the dot: the signature
check compares the tag of a *different* `header.payload` text against the
original tag — rejection with `ErrInvalidToken`, unless those two texts
collide under HMAC-SHA256. -/
theorem flip_payload_nodot (secret : Bytes) (uid : Nat) (un : Bytes)
    (D t0 now i : Nat) (hun : ValidBytes un)
    (hq : headerB64.length + 1 ≤ i / 8)
    (hlt : i / 8 < headerB64.length + 1 + (payloadSegment uid un D t0).length)
    (hnd : (payloadSegment uid un D t0).getD (i / 8 - (headerB64.length + 1)) 0
        ^^^ 2 ^ (i % 8) ≠ 46) :
    ParseToken secret (flipBit (GenerateToken secret uid un D t0) i) now =
      .error .ErrInvalidToken ∨ HmacCollision secret := by
  set j := i / 8 - (headerB64.length + 1) with hjdef
  have hj : j < (payloadSegment uid un D t0).length := by omega
  rw [GenerateToken_around_payload secret uid un D t0 j hj]
  rw [flipBit_split _ _ _ _ (by
    simp only [List.length_append, List.length_cons, List.length_take]
    omega)]
  have hassoc : (headerB64 ++ 46 :: (payloadSegment uid un D t0).take j)
      ++ ((payloadSegment uid un D t0).getD j 0 ^^^ 2 ^ (i % 8))
        :: ((payloadSegment uid un D t0).drop (j + 1)
          ++ 46 :: signatureSegment secret uid un D t0)
      = headerB64 ++ 46 :: (((payloadSegment uid un D t0).take j
          ++ ((payloadSegment uid un D t0).getD j 0 ^^^ 2 ^ (i % 8))
            :: (payloadSegment uid un D t0).drop (j + 1))
        ++ 46 :: signatureSegment secret uid un D t0) := by
    simp [List.append_assoc]
  rw [hassoc]
  have hsplit : splitOnDot (headerB64 ++ 46 :: (((payloadSegment uid un D t0).take j
      ++ ((payloadSegment uid un D t0).getD j 0 ^^^ 2 ^ (i % 8))
        :: (payloadSegment uid un D t0).drop (j + 1))
      ++ 46 :: signatureSegment secret uid un D t0))
      = [headerB64, (payloadSegment uid un D t0).take j
          ++ ((payloadSegment uid un D t0).getD j 0 ^^^ 2 ^ (i % 8))
            :: (payloadSegment uid un D t0).drop (j + 1),
         signatureSegment secret uid un D t0] := by
    refine splitOnDot_three _ _ _ headerB64_nodot ?_
      (signatureSegment_nodot secret uid un D t0)
    intro hm
    rcases List.mem_append.mp hm with hm | hm
    · exact payloadSegment_nodot uid un D t0 hun (List.take_subset _ _ hm)
    · rcases List.mem_cons.mp hm with he | hm
      · exact hnd he.symm
      · exact payloadSegment_nodot uid un D t0 hun (List.drop_subset _ _ hm)
  simp only [ParseToken, hsplit, b64decode_signatureSegment secret uid un D t0,
    eq_self_iff_true, if_true]
  by_cases hcol : hmacSha256 secret (headerB64 ++ 46 :: ((payloadSegment uid un D t0).take j
      ++ ((payloadSegment uid un D t0).getD j 0 ^^^ 2 ^ (i % 8))
        :: (payloadSegment uid un D t0).drop (j + 1)))
      = hmacSha256 secret (headerB64 ++ 46 :: payloadSegment uid un D t0)
  · refine Or.inr ⟨_, _, ?_, hcol⟩
    intro he
    have h3 := List.append_cancel_left he
    simp only [List.cons.injEq, true_and] at h3
    have h4 := h3.trans (take_getD_drop (payloadSegment uid un D t0) j hj)
    have h5 := List.append_cancel_left h4
    simp only [List.cons.injEq] at h5
    exact xor_pow_ne_self _ _ h5.1
  · rw [if_neg hcol]
    exact Or.inl rfl

/-- A signature-segment bit flip that turns its byte into a dot: four
segments, rejected as malformed — `ErrInvalidToken`. -/
theorem flip_sig_dot (secret : Bytes) (uid : Nat) (un : Bytes)
    (D t0 now i : Nat) (hun : ValidBytes un)
    (hq : headerB64.length + 1 + (payloadSegment uid un D t0).length + 1 ≤ i / 8)
    (hlt : i / 8 < headerB64.length + 1 + (payloadSegment uid un D t0).length + 1
        + (signatureSegment secret uid un D t0).length)
    (hdot : (signatureSegment secret uid un D t0).getD
        (i / 8 - (headerB64.length + (payloadSegment uid un D t0).length + 2)) 0
        ^^^ 2 ^ (i % 8) = 46) :
    ParseToken secret (flipBit (GenerateToken secret uid un D t0) i) now =
      .error .ErrInvalidToken := by
  set j := i / 8 - (headerB64.length + (payloadSegment uid un D t0).length + 2)
    with hjdef
  have hj : j < (signatureSegment secret uid un D t0).length := by omega
  rw [GenerateToken_around_sig secret uid un D t0 j hj]
  rw [flipBit_split _ _ _ _ (by
    simp only [List.length_append, List.length_cons, List.length_take]
    omega)]
  rw [hdot]
  have hsplit : splitOnDot
      ((headerB64 ++ 46 :: (payloadSegment uid un D t0
          ++ 46 :: (signatureSegment secret uid un D t0).take j))
        ++ 46 :: (signatureSegment secret uid un D t0).drop (j + 1))
      = [headerB64, payloadSegment uid un D t0,
         (signatureSegment secret uid un D t0).take j,
         (signatureSegment secret uid un D t0).drop (j + 1)] := by
    have h4 := splitOnDot_four headerB64 (payloadSegment uid un D t0)
      ((signatureSegment secret uid un D t0).take j)
      ((signatureSegment secret uid un D t0).drop (j + 1)) headerB64_nodot
      (payloadSegment_nodot uid un D t0 hun)
      (fun hm => signatureSegment_nodot secret uid un D t0 (List.take_subset _ _ hm))
      (fun hm => signatureSegment_nodot secret uid un D t0 (List.drop_subset _ _ hm))
    simpa [List.append_assoc] using h4
  simp only [ParseToken, hsplit]

/-- A signature-segment bit flip whose byte stays off the dot: the altered
segment either fails to decode or decodes to something other than the
recomputed tag — `ErrInvalidToken` — or (Go's lenient base64url decoding
dropping unused trailing bits) decodes to the *same* tag, in which case
validation proceeds exactly as for the untampered token and, inside the
validity window, succeeds with the original claims. -/
theorem flip_sig_nodot (secret : Bytes) (uid : Nat) (un : Bytes)
    (D t0 now i : Nat) (hun : ValidBytes un) (h1 : t0 ≤ now) (h2 : now < t0 + D)
    (hq : headerB64.length + 1 + (payloadSegment uid un D t0).length + 1 ≤ i / 8)
    (hlt : i / 8 < headerB64.length + 1 + (payloadSegment uid un D t0).length + 1
        + (signatureSegment secret uid un D t0).length)
    (hnd : (signatureSegment secret uid un D t0).getD
        (i / 8 - (headerB64.length + (payloadSegment uid un D t0).length + 2)) 0
        ^^^ 2 ^ (i % 8) ≠ 46) :
    ParseToken secret (flipBit (GenerateToken secret uid un D t0) i) now =
      .error .ErrInvalidToken
    ∨ ParseToken secret (flipBit (GenerateToken secret uid un D t0) i) now =
      .ok (mkClaims uid un D t0) := by
  set j := i / 8 - (headerB64.length + (payloadSegment uid un D t0).length + 2)
    with hjdef
  have hj : j < (signatureSegment secret uid un D t0).length := by omega
  rw [GenerateToken_around_sig secret uid un D t0 j hj]
  rw [flipBit_split _ _ _ _ (by
    simp only [List.length_append, List.length_cons, List.length_take]
    omega)]
  have hassoc : (headerB64 ++ 46 :: (payloadSegment uid un D t0
      ++ 46 :: (signatureSegment secret uid un D t0).take j))
      ++ ((signatureSegment secret uid un D t0).getD j 0 ^^^ 2 ^ (i % 8))
        :: (signatureSegment secret uid un D t0).drop (j + 1)
      = headerB64 ++ 46 :: (payloadSegment uid un D t0
        ++ 46 :: ((signatureSegment secret uid un D t0).take j
          ++ ((signatureSegment secret uid un D t0).getD j 0 ^^^ 2 ^ (i % 8))
            :: (signatureSegment secret uid un D t0).drop (j + 1))) := by
    simp [List.append_assoc]
  rw [hassoc]
  have hsplit : splitOnDot (headerB64 ++ 46 :: (payloadSegment uid un D t0
      ++ 46 :: ((signatureSegment secret uid un D t0).take j
        ++ ((signatureSegment secret uid un D t0).getD j 0 ^^^ 2 ^ (i % 8))
          :: (signatureSegment secret uid un D t0).drop (j + 1))))
      = [headerB64, payloadSegment uid un D t0,
         (signatureSegment secret uid un D t0).take j
          ++ ((signatureSegment secret uid un D t0).getD j 0 ^^^ 2 ^ (i % 8))
            :: (signatureSegment secret uid un D t0).drop (j + 1)] := by
    refine splitOnDot_three _ _ _ headerB64_nodot
      (payloadSegment_nodot uid un D t0 hun) ?_
    intro hm
    rcases List.mem_append.mp hm with hm | hm
    · exact signatureSegment_nodot secret uid un D t0 (List.take_subset _ _ hm)
    · rcases List.mem_cons.mp hm with he | hm
      · exact hnd he.symm
      · exact signatureSegment_nodot secret uid un D t0 (List.drop_subset _ _ hm)
  rw [ParseToken_goodPayload secret uid un D t0 now hun h1 h2 _ _ hsplit]
  cases hdec : b64decode ((signatureSegment secret uid un D t0).take j
      ++ ((signatureSegment secret uid un D t0).getD j 0 ^^^ 2 ^ (i % 8))
        :: (signatureSegment secret uid un D t0).drop (j + 1)) with
  | none => exact Or.inl rfl
  | some w =>
      by_cases hw : hmacSha256 secret
          (headerB64 ++ 46 :: payloadSegment uid un D t0) = w
      · right
        simp only [hw, eq_self_iff_true, if_true]
      · left
        simp only [hw, ite_false]

/-! ## Refresh over issued tokens -/

/-- `refresh` on a validly issued token inside its window succeeds and issues
a fresh pair for the principal recovered from the claims. -/
theorem refresh_generate_ok (secret : Bytes) (uid : Nat) (un : Bytes)
    (D t0 now : Nat) (hun : ValidBytes un) (h1 : t0 ≤ now) (h2 : now < t0 + D) :
    refresh secret (GenerateToken secret uid un D t0) now =
      .ok (buildTokenPair secret uid un now) := by
  simp only [refresh, parse_generate_ok secret uid un D t0 now hun h1 h2]
  rfl

/-! ## The claims -/

/-- C1 (amended): `refresh` accepts any validly issued, unexpired token
regardless of role.  The recovered `Claims` carry no `token_kind` (see
`serializeClaims`/`mkClaims`), no `WRONG_TOKEN_KIND` error exists in the
error surface (`JwtError` has exactly `ErrInvalidToken` and
`ErrExpiredToken`), and `refresh` on the *access* token of an issued pair,
inside the access window, succeeds and returns a brand-new `TokenPair` for
the same principal. -/
theorem claim_C1 (secret : Bytes) (uid : Nat) (un : Bytes) (t0 now : Nat)
    (hun : ValidBytes un) (h1 : t0 ≤ now) (h2 : now < t0 + accessTokenDuration) :
    refresh secret (GenerateTokenPair secret uid un t0).1 now =
      .ok (buildTokenPair secret uid un now) :=
  refresh_generate_ok secret uid un accessTokenDuration t0 now hun h1 h2

/-- C1 witness: a concrete access token, refreshed two seconds after issuance,
yields a fresh pair. -/
theorem claim_C1_witness :
    ValidBytes (ascii ("bob")) ∧ (5 : Nat) ≤ 7 ∧ (7 : Nat) < 5 + accessTokenDuration
    ∧ refresh (ascii ("s")) (GenerateTokenPair (ascii ("s")) 9 (ascii ("bob")) 5).1 7 =
        .ok (buildTokenPair (ascii ("s")) 9 (ascii ("bob")) 7) :=
  ⟨by decide, by decide, by decide,
    claim_C1 (ascii ("s")) 9 (ascii ("bob")) 5 7 (by decide) (by decide) (by decide)⟩

/-- C1 counterexample to the claim as stated: `refresh` on a validly issued,
unexpired, well-formed ACCESS token does *not* fail with `WRONG_TOKEN_KIND`
(no such error exists) — it succeeds, and a new `TokenPair` *is* issued. -/
theorem claim_C1_counterexample :
    refresh (ascii ("k")) (GenerateTokenPair (ascii ("k")) 2 (ascii ("alice")) 50).1 60 =
      .ok (buildTokenPair (ascii ("k")) 2 (ascii ("alice")) 60) :=
  refresh_generate_ok (ascii ("k")) 2 (ascii ("alice")) accessTokenDuration 50 60
    (by decide) (by decide) (by decide)

/-- C2: `pkg/jwt`'s startup initialization reads `JWT_SECRET` once; an
absent/empty value aborts startup with the panic message, and any
successfully configured signing secret is byte-for-byte the environment
value — no compiled-in or generated default is ever substituted. -/
theorem claim_C2 (env : String) :
    (env = "" → jwtInit env = .error ("JWT_SECRET environment variable is required"))
    ∧ (env ≠ "" → jwtInit env = .ok (strBytes env))
    ∧ (∀ b, jwtInit env = .ok b → b = strBytes env) := by
  refine ⟨fun h => by simp [jwtInit, h], fun h => by simp [jwtInit, h], ?_⟩
  intro b hb
  by_cases h : env = ""
  · simp [jwtInit, h] at hb
  · simp [jwtInit, h] at hb
    exact hb.symm

/-- C2 witness: startup aborts on an empty `JWT_SECRET` and otherwise uses
exactly the configured value. -/
theorem claim_C2_witness :
    jwtInit "" = .error ("JWT_SECRET environment variable is required")
    ∧ jwtInit "s3cr3t" = .ok (strBytes "s3cr3t") :=
  ⟨(claim_C2 "").1 rfl, (claim_C2 "s3cr3t").2.1 (by decide)⟩

/-- C3 (amended): round-trip of issuance and validation.  For every
principal, duration `D` and `0 ≤ ε < D`, validating the issued token at
`t0 + ε` succeeds and returns Claims whose user id and name are identical to
those supplied at issuance.  The signed Claims carry no `token_kind`, so no
kind is embedded, returned, or comparable (see the counterexample). -/
theorem claim_C3 (secret : Bytes) (uid : Nat) (un : Bytes) (D t0 ε : Nat)
    (hun : ValidBytes un) (hε : ε < D) :
    ParseToken secret (GenerateToken secret uid un D t0) (t0 + ε) =
      .ok (mkClaims uid un D t0)
    ∧ (mkClaims uid un D t0).UserID = uid
    ∧ (mkClaims uid un D t0).Username = un :=
  ⟨parse_generate_ok secret uid un D t0 (t0 + ε) hun (by omega) (by omega),
    rfl, rfl⟩

/-- C3 witness: a concrete round trip three seconds after issuance. -/
theorem claim_C3_witness :
    ValidBytes (ascii ("alice")) ∧ (3 : Nat) < 900
    ∧ (ParseToken (ascii ("k")) (GenerateToken (ascii ("k")) 2 (ascii ("alice")) 900 1700000000)
          (1700000000 + 3) = .ok (mkClaims 2 (ascii ("alice")) 900 1700000000)
        ∧ (mkClaims 2 (ascii ("alice")) 900 1700000000).UserID = 2
        ∧ (mkClaims 2 (ascii ("alice")) 900 1700000000).Username = ascii ("alice")) :=
  ⟨by decide, by decide,
    claim_C3 (ascii ("k")) 2 (ascii ("alice")) 900 1700000000 3 (by decide) (by decide)⟩

/-- C3 counterexample to the claim as stated: the validation result cannot
return "a kind identical to that supplied at issuance" — issuing with kind
ACCESS and with kind REFRESH (same principal, duration, instant) produces
the *same* token, hence the same validation result, while the two supplied
kinds differ. -/
theorem claim_C3_counterexample :
    issueWithKind (ascii ("k")) 2 (ascii ("alice")) TokenKind.ACCESS 900 0
      = issueWithKind (ascii ("k")) 2 (ascii ("alice")) TokenKind.REFRESH 900 0
    ∧ TokenKind.ACCESS ≠ TokenKind.REFRESH
    ∧ ParseToken (ascii ("k"))
        (issueWithKind (ascii ("k")) 2 (ascii ("alice")) TokenKind.ACCESS 900 0) 0
      = ParseToken (ascii ("k"))
        (issueWithKind (ascii ("k")) 2 (ascii ("alice")) TokenKind.REFRESH 900 0) 0 :=
  ⟨rfl, by decide, rfl⟩

/-- C4 (amended): a signature-valid token whose `not_before` lies in the
future is rejected with `ErrInvalidToken` — the same error value the
validator returns for malformed and signature-tampered tokens (the source
maps `jwt.ErrTokenNotValidYet` into `ErrInvalidToken`), distinguishable
from `ErrExpiredToken` only. -/
theorem claim_C4 (secret : Bytes) (uid : Nat) (un : Bytes) (D t0 now : Nat)
    (hun : ValidBytes un) (h : now < t0) :
    ParseToken secret (GenerateToken secret uid un D t0) now =
      .error .ErrInvalidToken
    ∧ JwtError.ErrInvalidToken ≠ JwtError.ErrExpiredToken :=
  ⟨parse_generate_notyet secret uid un D t0 now hun h, by decide⟩

/-- C4 witness: a token issued at 100 and validated at 0. -/
theorem claim_C4_witness :
    ValidBytes (ascii ("alice")) ∧ (0 : Nat) < 100
    ∧ (ParseToken (ascii ("k")) (GenerateToken (ascii ("k")) 2 (ascii ("alice")) 900 100) 0 =
          .error .ErrInvalidToken
        ∧ JwtError.ErrInvalidToken ≠ JwtError.ErrExpiredToken) :=
  ⟨by decide, by decide,
    claim_C4 (ascii ("k")) 2 (ascii ("alice")) 900 100 0 (by decide) (by decide)⟩

/-- C4 counterexample to the claim as stated: the not-yet-valid failure is
*not* a distinct classified error.  A signature-valid token presented before
its `not_before` and a plainly malformed string produce the *identical*
error value `ErrInvalidToken`, so the caller cannot distinguish
NOT_YET_VALID from MALFORMED or BAD_SIGNATURE. -/
theorem claim_C4_counterexample :
    ParseToken (ascii ("k")) (GenerateToken (ascii ("k")) 2 (ascii ("alice")) 900 100) 0 =
      .error JwtError.ErrInvalidToken
    ∧ ParseToken (ascii ("k")) (ascii ("xx")) 0 = .error JwtError.ErrInvalidToken :=
  ⟨parse_generate_notyet (ascii ("k")) 2 (ascii ("alice")) 900 100 0 (by decide) (by decide),
    by decide⟩

/-- C5: every issued token validated at or after `t0 + D` fails with
`ErrExpiredToken`, and with no other error class. -/
theorem claim_C5 (secret : Bytes) (uid : Nat) (un : Bytes) (D t0 now : Nat)
    (hun : ValidBytes un) (h : t0 + D ≤ now) :
    ParseToken secret (GenerateToken secret uid un D t0) now =
      .error .ErrExpiredToken :=
  parse_generate_expired secret uid un D t0 now hun h

/-- C5 witness: a 900-second token issued at 10, validated at 910. -/
theorem claim_C5_witness :
    ValidBytes (ascii ("alice")) ∧ (10 : Nat) + 900 ≤ 910
    ∧ ParseToken (ascii ("k")) (GenerateToken (ascii ("k")) 2 (ascii ("alice")) 900 10) 910 =
        .error .ErrExpiredToken :=
  ⟨by decide, by decide,
    claim_C5 (ascii ("k")) 2 (ascii ("alice")) 900 10 910 (by decide) (by decide)⟩

/-- C7: the Claims `GenerateToken` embeds satisfy
`not_before ≤ issued_at < expires_at` whenever the duration is positive
(`NotBefore = IssuedAt = now`, `ExpiresAt = now + duration`). -/
theorem claim_C7 (uid : Nat) (un : Bytes) (D t0 : Nat) (hD : 0 < D) :
    (mkClaims uid un D t0).NotBefore ≤ (mkClaims uid un D t0).IssuedAt
    ∧ (mkClaims uid un D t0).IssuedAt < (mkClaims uid un D t0).ExpiresAt := by
  simp only [mkClaims]
  omega

/-- C7 witness: the concrete claims of a 15-minute token. -/
theorem claim_C7_witness :
    (0 : Nat) < 900
    ∧ ((mkClaims 2 (ascii ("alice")) 900 1700000000).NotBefore
        ≤ (mkClaims 2 (ascii ("alice")) 900 1700000000).IssuedAt
      ∧ (mkClaims 2 (ascii ("alice")) 900 1700000000).IssuedAt
        < (mkClaims 2 (ascii ("alice")) 900 1700000000).ExpiresAt) :=
  ⟨by decide, claim_C7 2 (ascii ("alice")) 900 1700000000 (by decide)⟩

/-- C8: the pair's reported access-token lifetime is 900 seconds (15
minutes), its refresh-token lifetime 604800 seconds (7 days), and the former
is strictly smaller — for every principal and issuance instant. -/
theorem claim_C8 (secret : Bytes) (uid : Nat) (un : Bytes) (t0 : Nat) :
    (buildTokenPair secret uid un t0).AccessExpiresIn = 900
    ∧ (buildTokenPair secret uid un t0).RefreshExpiresIn = 604800
    ∧ (buildTokenPair secret uid un t0).AccessExpiresIn
        < (buildTokenPair secret uid un t0).RefreshExpiresIn := by
  simp only [buildTokenPair, computeExpiresIn, mkClaims,
    accessTokenDuration, refreshTokenDuration]
  omega

/-- C9: the two tokens of a pair carry signed Claims identical in every
field except the expiry — same user id, username, `orig_iat`, `iat`, `nbf`
— no field records the token's kind, and `ParseToken` (the single validator
used everywhere) accepts the unexpired refresh token exactly where it
accepts the access token, recovering those claims. -/
theorem claim_C9 (secret : Bytes) (uid : Nat) (un : Bytes) (t0 now : Nat)
    (hun : ValidBytes un) (h1 : t0 ≤ now) (h2 : now < t0 + 900) :
    ParseToken secret (GenerateTokenPair secret uid un t0).1 now
      = .ok (mkClaims uid un accessTokenDuration t0)
    ∧ ParseToken secret (GenerateTokenPair secret uid un t0).2 now
      = .ok (mkClaims uid un refreshTokenDuration t0)
    ∧ (mkClaims uid un accessTokenDuration t0).UserID
        = (mkClaims uid un refreshTokenDuration t0).UserID
    ∧ (mkClaims uid un accessTokenDuration t0).Username
        = (mkClaims uid un refreshTokenDuration t0).Username
    ∧ (mkClaims uid un accessTokenDuration t0).OrigIat
        = (mkClaims uid un refreshTokenDuration t0).OrigIat
    ∧ (mkClaims uid un accessTokenDuration t0).IssuedAt
        = (mkClaims uid un refreshTokenDuration t0).IssuedAt
    ∧ (mkClaims uid un accessTokenDuration t0).NotBefore
        = (mkClaims uid un refreshTokenDuration t0).NotBefore
    ∧ (mkClaims uid un accessTokenDuration t0).ExpiresAt
        ≠ (mkClaims uid un refreshTokenDuration t0).ExpiresAt := by
  have ha : (accessTokenDuration : Nat) = 900 := rfl
  have hr : (refreshTokenDuration : Nat) = 604800 := rfl
  refine ⟨parse_generate_ok secret uid un accessTokenDuration t0 now hun h1
      (by rw [ha]; omega),
    parse_generate_ok secret uid un refreshTokenDuration t0 now hun h1
      (by rw [hr]; omega),
    rfl, rfl, rfl, rfl, rfl, ?_⟩
  simp only [mkClaims, ha, hr]
  omega

/-- C9 witness: a concrete pair, both tokens validated at issuance time. -/
theorem claim_C9_witness :
    ValidBytes (ascii ("alice")) ∧ (40 : Nat) ≤ 41 ∧ (41 : Nat) < 40 + 900
    ∧ (ParseToken (ascii ("k")) (GenerateTokenPair (ascii ("k")) 2 (ascii ("alice")) 40).1 41
        = .ok (mkClaims 2 (ascii ("alice")) accessTokenDuration 40)
      ∧ ParseToken (ascii ("k")) (GenerateTokenPair (ascii ("k")) 2 (ascii ("alice")) 40).2 41
        = .ok (mkClaims 2 (ascii ("alice")) refreshTokenDuration 40)
      ∧ (mkClaims 2 (ascii ("alice")) accessTokenDuration 40).UserID
          = (mkClaims 2 (ascii ("alice")) refreshTokenDuration 40).UserID
      ∧ (mkClaims 2 (ascii ("alice")) accessTokenDuration 40).Username
          = (mkClaims 2 (ascii ("alice")) refreshTokenDuration 40).Username
      ∧ (mkClaims 2 (ascii ("alice")) accessTokenDuration 40).OrigIat
          = (mkClaims 2 (ascii ("alice")) refreshTokenDuration 40).OrigIat
      ∧ (mkClaims 2 (ascii ("alice")) accessTokenDuration 40).IssuedAt
          = (mkClaims 2 (ascii ("alice")) refreshTokenDuration 40).IssuedAt
      ∧ (mkClaims 2 (ascii ("alice")) accessTokenDuration 40).NotBefore
          = (mkClaims 2 (ascii ("alice")) refreshTokenDuration 40).NotBefore
      ∧ (mkClaims 2 (ascii ("alice")) accessTokenDuration 40).ExpiresAt
          ≠ (mkClaims 2 (ascii ("alice")) refreshTokenDuration 40).ExpiresAt) :=
  ⟨by decide, by decide, by decide,
    claim_C9 (ascii ("k")) 2 (ascii ("alice")) 40 41 (by decide) (by decide) (by decide)⟩

/-- C6 (amended): flipping any single bit of an issued token's payload or
signature segment, and validating inside the token's window, fails with
`ErrInvalidToken` — the same classified error as a malformed token, not a
distinct BAD_SIGNATURE — and never succeeds with altered claim values,
except that (i) a flip whose altered `header.payload` text collides with the
original under HMAC-SHA256 is beyond the code's control (the collision is
exhibited), and (ii) a signature-segment flip landing in the unused trailing
bits of the final base64url character decodes to the unchanged signature
(Go's lenient `RawURLEncoding` outside `Strict()` mode) and validates
successfully — with the claims byte-for-byte *unaltered*. -/
theorem claim_C6 (secret : Bytes) (uid : Nat) (un : Bytes) (D t0 now i : Nat)
    (hun : ValidBytes un) (h1 : t0 ≤ now) (h2 : now < t0 + D)
    (hreg : inPayloadRegion uid un D t0 i ∨ inSignatureRegion secret uid un D t0 i) :
    ParseToken secret (flipBit (GenerateToken secret uid un D t0) i) now =
      .error .ErrInvalidToken
    ∨ HmacCollision secret
    ∨ (inSignatureRegion secret uid un D t0 i
        ∧ ParseToken secret (flipBit (GenerateToken secret uid un D t0) i) now =
            .ok (mkClaims uid un D t0)) := by
  rcases hreg with ⟨hq, hlt⟩ | ⟨hq, hlt⟩
  · by_cases hdot : (payloadSegment uid un D t0).getD
          (i / 8 - (headerB64.length + 1)) 0 ^^^ 2 ^ (i % 8) = 46
    · exact Or.inl (flip_payload_dot secret uid un D t0 now i hun hq hlt hdot)
    · rcases flip_payload_nodot secret uid un D t0 now i hun hq hlt hdot with h | h
      · exact Or.inl h
      · exact Or.inr (Or.inl h)
  · by_cases hdot : (signatureSegment secret uid un D t0).getD
          (i / 8 - (headerB64.length + (payloadSegment uid un D t0).length + 2)) 0
          ^^^ 2 ^ (i % 8) = 46
    · exact Or.inl (flip_sig_dot secret uid un D t0 now i hun hq hlt hdot)
    · rcases flip_sig_nodot secret uid un D t0 now i hun h1 h2 hq hlt hdot with h | h
      · exact Or.inl h
      · exact Or.inr (Or.inr ⟨⟨hq, hlt⟩, h⟩)

/-- C6 witness: the first payload-segment bit of a concrete token. -/
theorem claim_C6_witness :
    ValidBytes (ascii ("u")) ∧ (0 : Nat) ≤ 1 ∧ (1 : Nat) < 0 + 900
    ∧ (inPayloadRegion 1 (ascii ("u")) 900 0 296
        ∨ inSignatureRegion (ascii ("w")) 1 (ascii ("u")) 900 0 296)
    ∧ (ParseToken (ascii ("w")) (flipBit (GenerateToken (ascii ("w")) 1 (ascii ("u")) 900 0) 296) 1 =
          .error .ErrInvalidToken
        ∨ HmacCollision (ascii ("w"))
        ∨ (inSignatureRegion (ascii ("w")) 1 (ascii ("u")) 900 0 296
            ∧ ParseToken (ascii ("w"))
                (flipBit (GenerateToken (ascii ("w")) 1 (ascii ("u")) 900 0) 296) 1 =
              .ok (mkClaims 1 (ascii ("u")) 900 0))) :=
  ⟨by decide, by decide, by decide, Or.inl (by decide),
    claim_C6 (ascii ("w")) 1 (ascii ("u")) 900 0 1 296 (by decide) (by decide)
      (by decide) (Or.inl (by decide))⟩

/-- C6 counterexample to the claim as stated: there is no distinct
BAD_SIGNATURE error.  Flipping bit 6 of payload-segment byte 47 of a
concrete issued token (turning the base64url character `n` into a dot)
makes validation fail with `ErrInvalidToken` — the very same error value a
plainly malformed token produces — so the caller cannot attribute the
failure to tampering. -/
theorem claim_C6_counterexample :
    ParseToken (ascii ("k"))
        (flipBit (GenerateToken (ascii ("k")) 2 (ascii ("dave")) 900 0) 678) 0 =
      .error JwtError.ErrInvalidToken
    ∧ ParseToken (ascii ("k")) (ascii ("zz")) 0 = .error JwtError.ErrInvalidToken :=
  ⟨flip_payload_dot (ascii ("k")) 2 (ascii ("dave")) 900 0 0 678
      (by decide) (by decide) (by decide) (by decide),
    by decide⟩

/-- C10: `ParseToken` surfaces exactly two failure outcomes.  Every error is
`ErrInvalidToken` or `ErrExpiredToken`; and the error is `ErrExpiredToken`
precisely when the token is well-formed (three segments, canonical header),
its signature verifies against the recomputed tag, its payload parses, and
its expiry has passed — every other failure (malformed string, undecodable
segment, signature mismatch, not-yet-valid) is the single undifferentiated
`ErrInvalidToken`. -/
theorem claim_C10 (secret tok : Bytes) (now : Nat) :
    (∀ e, ParseToken secret tok now = .error e →
        e = JwtError.ErrInvalidToken ∨ e = JwtError.ErrExpiredToken)
    ∧ (ParseToken secret tok now = .error JwtError.ErrExpiredToken ↔
        ∃ h p s c, splitOnDot tok = [h, p, s] ∧ h = headerB64
          ∧ b64decode s = some (hmacSha256 secret (h ++ 46 :: p))
          ∧ (b64decode p).bind parseClaims = some c
          ∧ c.ExpiresAt ≤ now) := by
  constructor
  · intro e he
    cases e
    · exact Or.inl rfl
    · exact Or.inr rfl
  · constructor
    · intro he
      unfold ParseToken at he
      split at he
      · rename_i h p s heq
        split at he
        · rename_i hh
          split at he
          · simp at he
          · rename_i sig heq2
            split at he
            · rename_i hcond
              split at he
              · simp at he
              · rename_i pb heq3
                split at he
                · simp at he
                · rename_i c heq4
                  split at he
                  · rename_i hexp
                    refine ⟨h, p, s, c, heq, hh, ?_, ?_, hexp⟩
                    · rw [heq2, hcond]
                    · rw [heq3]
                      simpa using heq4
                  · split at he <;> simp at he
            · simp at he
        · simp at he
      · simp at he
    · rintro ⟨h, p, s, c, hsp, hh, hs, hp, hexp⟩
      subst hh
      rcases hbp : b64decode p with _ | pb
      · rw [hbp] at hp
        simp at hp
      · rw [hbp] at hp
        simp only [Option.some_bind] at hp
        simp only [ParseToken, hsp, hs, hbp, hp, hexp, eq_self_iff_true,
          if_true, ite_true]

/-- C10 witness: the first disjunct at a concrete malformed token. -/
theorem claim_C10_witness :
    JwtError.ErrInvalidToken = JwtError.ErrInvalidToken
    ∨ JwtError.ErrInvalidToken = JwtError.ErrExpiredToken :=
  (claim_C10 (ascii ("k")) (ascii ("zz")) 0).1 JwtError.ErrInvalidToken (by decide)

end Memogo
